import Mathlib

/-!
Verification of the quiz/flashcard learning-session logic of the educational
web application (`src/App.tsx` and companions) against its natural-language
specification.  The definitions below are a shallow embedding of the
TypeScript source: JSON values become an inductive `Json` type, JavaScript
objects become association lists, machine numbers become `Int`/`Rat`, and
fallible operations return `Option`/`Except`.
-/

namespace DayHocAI

/-- A parsed JSON value, as produced by the browser's `JSON.parse`. -/
inductive Json where
  | str (s : String)
  | num (n : Int)
  | bool (b : Bool)
  | null
  | arr (xs : List Json)
  | obj (fields : List (String × Json))

/-- Lookup in an association list (first matching key wins), mirroring
JavaScript property access on a plain object. -/
def getAssoc {κ α : Type} [DecidableEq κ] (l : List (κ × α)) (k : κ) : Option α :=
  (l.find? (fun p => decide (p.1 = k))).map (·.2)

/-- Property update on an association list: overwrite every entry with the
key if present, otherwise append, mirroring `o[k] = v` on a JS object. -/
def setAssoc {κ α : Type} [DecidableEq κ] (l : List (κ × α)) (k : κ) (v : α) : List (κ × α) :=
  if l.any (fun p => decide (p.1 = k)) then
    l.map (fun p => if p.1 = k then (k, v) else p)
  else l ++ [(k, v)]

/-- Field access `j.k` on a parsed JSON value (`undefined` becomes `none`). -/
def getField : Json → String → Option Json
  | Json.obj fields, k => getAssoc fields k
  | _, _ => none

/-! ## Progression/Unlock policy (`KidGeniusApp` unlock `useEffect`, src/App.tsx 785-812) -/

/-- The JS object `difficultyOrder = { 'Dễ': 1, 'Trung bình': 2, 'Khó': 3 }`;
an unknown key reads as `undefined`, i.e. `none`. -/
def difficultyOrder (k : String) : Option Nat :=
  if k = "Dễ" then some 1
  else if k = "Trung bình" then some 2
  else if k = "Khó" then some 3
  else none

/-- `Object.keys(difficultyOrder).find(key => difficultyOrder[key] === idx + 1)`. -/
def nextDifficultyOf (idx : Nat) : Option String :=
  ["Dễ", "Trung bình", "Khó"].find? (fun k => difficultyOrder k == some (idx + 1))

/-- JS `>` on two values that may be `undefined`: any comparison involving
`undefined` (NaN after coercion) is false. -/
def jsGtOpt : Option Nat → Option Nat → Bool
  | some x, some y => decide (y < x)
  | _, _ => false

/-- `UnlockProgress`: the persisted JS object mapping grade → subject →
highest unlocked difficulty name. -/
abbrev UnlockProgress : Type := List (String × List (String × String))

/-- `newProgress[grade][subject] = nextDifficulty` on the nested object. -/
def setNested (p : UnlockProgress) (g s nd : String) : UnlockProgress :=
  p.map (fun q => if q.1 = g then (q.1, setAssoc q.2 s nd) else q)

/-- `newProgress[currentGrade][currentSubject] || 'Dễ'`: a missing entry or a
falsy (empty) string reads as `'Dễ'`. -/
def effectiveUnlocked (p : UnlockProgress) (g s : String) : String :=
  match (getAssoc p g).bind (fun inner => getAssoc inner s) with
  | some v => if v = "" then "Dễ" else v
  | none => "Dễ"

/-- `if (!newProgress[currentGrade]) { newProgress[currentGrade] = {} }`
(src/App.tsx 797-799). -/
def ensureGrade (p : UnlockProgress) (g : String) : UnlockProgress :=
  if (getAssoc p g).isSome then p else p ++ [(g, [])]

/-- The conditional write (src/App.tsx 801-807): read the currently unlocked
level (defaulting to `'Dễ'`), and write the next tier only when its order is
strictly higher. -/
def unlockStep (g s nd : String) (p1 : UnlockProgress) : UnlockProgress :=
  if jsGtOpt (difficultyOrder nd) (difficultyOrder (effectiveUnlocked p1 g s)) then
    setNested p1 g s nd
  else p1

/-- The unlock `useEffect` body (src/App.tsx 785-812) as a pure function of
its inputs: fires when the result stage is reached with `score >= 70`; when
`difficultyOrder[difficulty] < 3` the updater runs on a deep copy of the
progress object (ensuring the grade key, then conditionally writing the next
tier); otherwise the state is untouched. -/
def applyUnlockPolicy (g s d : String) (score : Int) (prev : UnlockProgress) : UnlockProgress :=
  if 70 ≤ score then
    match difficultyOrder d with
    | none => prev
    | some idx =>
      if idx < 3 then
        match nextDifficultyOf idx with
        | some nd => unlockStep g s nd (ensureGrade prev g)
        | none => ensureGrade prev g
      else prev
  else prev

/-! ## KidGenius quiz session state machine (src/App.tsx 699-1068) -/

/-- Free-text tutor feedback `{ title, content }`. -/
structure TutorFeedback where
  title : String
  content : String
deriving DecidableEq

/-- The view stage of the KidGenius machine (`'setup' | 'quiz' | 'result'`). -/
inductive Stage where
  | setup
  | quiz
  | result
deriving DecidableEq

/-- The React state of one KidGenius quiz attempt. -/
structure KidGeniusState where
  stage : Stage
  questions : List Json
  userAnswers : List (Nat × Int)
  currentQuestionIndex : Nat
  score : Int
  selectedAnswer : Option (Int × Bool)
  showFeedback : Bool
  error : String
  isFromPath : Bool
  aiTutorFeedback : Option TutorFeedback

/-- The initial state of the KidGenius component. -/
def initialKidGeniusState : KidGeniusState :=
  { stage := Stage.setup, questions := [], userAnswers := [],
    currentQuestionIndex := 0, score := 0, selectedAnswer := none,
    showFeedback := false, error := "", isFromPath := false,
    aiTutorFeedback := none }

/-- `generateKidGeniusQuiz` (src/App.tsx 820-888) as a function of the
upstream response: `none` models an unparseable response (JSON.parse threw),
`some j` the parsed value.  The only client-side validation is
`Array.isArray(...) && length > 0`; on any failure the catch block records an
error message and no quiz state is written. -/
def quizGenErrorMessage (detail : String) : String :=
  "Không thể tạo câu hỏi. Vui lòng thử lại. Lỗi: " ++ detail

def generateKidGeniusQuiz (fromPath : Bool) (resp : Option Json) (st : KidGeniusState) : KidGeniusState :=
  let st1 := { st with error := "", isFromPath := fromPath }
  match resp with
  | some (Json.arr qs) =>
    if qs.length = 0 then
      { st1 with error := quizGenErrorMessage "AI không trả về câu hỏi hợp lệ." }
    else
      { st1 with questions := qs, currentQuestionIndex := 0, score := 0,
                 selectedAnswer := none, showFeedback := false, userAnswers := [],
                 aiTutorFeedback := none, stage := Stage.quiz }
  | some _ =>
      { st1 with error := quizGenErrorMessage "AI không trả về câu hỏi hợp lệ." }
  | none =>
      { st1 with error := quizGenErrorMessage "SyntaxError" }

/-- `handleAnswerSelect` (src/App.tsx 1035-1047): records the selection,
checks strict equality against `correctAnswerIndex`, and adds a fixed 20
points per correct answer. -/
def handleAnswerSelect (optionIndex : Int) (st : KidGeniusState) : KidGeniusState :=
  if st.showFeedback then st else
  let currentQuestion := st.questions.getD st.currentQuestionIndex Json.null
  let isCorrect :=
    match getField currentQuestion "correctAnswerIndex" with
    | some (Json.num n) => optionIndex == n
    | _ => false
  { st with
    userAnswers := setAssoc st.userAnswers st.currentQuestionIndex optionIndex,
    selectedAnswer := some (optionIndex, isCorrect),
    score := if isCorrect then st.score + 20 else st.score,
    showFeedback := true }

/-- `handleNext` (src/App.tsx 1049-1059): advance or finish. -/
def handleNext (st : KidGeniusState) : KidGeniusState :=
  let st1 := { st with selectedAnswer := none, showFeedback := false }
  if st.currentQuestionIndex < st.questions.length - 1 then
    { st1 with currentQuestionIndex := st.currentQuestionIndex + 1 }
  else
    { st1 with stage := Stage.result }

/-- The KidGenius score after a run of answers: a fold of the fixed
`+20`-per-correct increment of `handleAnswerSelect`. -/
def kidGeniusScore (corrects : List Bool) : Int :=
  corrects.foldl (fun s c => if c then s + 20 else s) 0

/-! ## QuizMaster scoring (`handleAnswerSelectQuiz`, src/App.tsx 2494-2519) -/

/-- The QuizMaster score accumulator: each correct answer adds
`100 / questions.length` (exact rational arithmetic stands in for the
JS number type). -/
def quizMasterScore (n : Nat) (corrects : List Bool) : Rat :=
  corrects.foldl (fun s c => if c then s + 100 / (n : Rat) else s) 0

/-- `Math.round(score)` applied at the end of the quiz (src/App.tsx 2516). -/
def quizMasterFinalScore (n : Nat) (corrects : List Bool) : Int :=
  round (quizMasterScore n corrects)

/-! ## Flashcards (`QuizMasterApp`, src/App.tsx 1783-1793, 2326-2360) -/

/-- Tri-state mastery status of a flashcard
(`'new' | 'mastered' | 'needs review'`). -/
inductive CardStatus where
  | new
  | mastered
  | needsReview
deriving DecidableEq

/-- A flashcard `{ front, back, status }`. -/
structure Card where
  front : String
  back : String
  status : CardStatus
deriving DecidableEq

/-- A multiple-choice question produced by `makeMCFromCards`
(`{ id, type, q, opts, a, explanation }`). -/
structure MCQuestion where
  id : Nat
  type : String
  q : String
  opts : List String
  a : Int
  explanation : String
deriving DecidableEq

instance : Inhabited MCQuestion :=
  ⟨{ id := 0, type := "", q := "", opts := [], a := 0, explanation := "" }⟩

/-- JS `Array.prototype.indexOf`: index of the first occurrence, `-1` if
absent. -/
def jsIndexOf (l : List String) (x : String) : Int :=
  if x ∈ l then (l.indexOf x : Int) else -1

/-- The card chosen for question `i`: `pool[i]` where `pool = shuffle(cards)`.
The random `shuffle` is abstracted as an oracle `shc0`; theorems assume it
permutes its input. -/
def mcCorrectCard (shc0 : List Card → List Card) (cards : List Card) (i : Nat) : Card :=
  (shc0 cards).getD i { front := "", back := "", status := CardStatus.new }

/-- The distractor back-texts for question `i`:
`shuffle(cards.filter(c => c.front !== correct.front)).slice(0, 3).map(c => c.back)`.
Each loop iteration draws its own shuffle, hence the oracle is indexed by `i`. -/
def mcDistractors (shcD : Nat → List Card → List Card) (cards : List Card) (correct : Card) (i : Nat) : List String :=
  ((shcD i (cards.filter (fun c => c.front != correct.front))).take 3).map (·.back)

/-- `makeMCFromCards(cards, count)` (src/App.tsx 1783-1793), with the three
`shuffle` call sites abstracted as permutation oracles
(`shc0` for the pool, `shcD i` for the distractor draw of iteration `i`,
`shsO i` for the option order of iteration `i`). -/
def makeMCFromCards (shc0 : List Card → List Card) (shcD : Nat → List Card → List Card)
    (shsO : Nat → List String → List String) (cards : List Card) (count : Nat) : List MCQuestion :=
  (List.range (min count (shc0 cards).length)).map (fun i =>
    let correct := mcCorrectCard shc0 cards i
    let distractors := mcDistractors shcD cards correct i
    let opts := shsO i (correct.back :: distractors)
    { id := i + 1, type := "mc", q := correct.front, opts := opts,
      a := jsIndexOf opts correct.back,
      explanation := "Đáp án đúng là \"" ++ correct.back ++ "\" vì nó tương ứng với mặt trước của thẻ: \"" ++ correct.front ++ "\"." })

/-- The subset strategies of `useCardsToQuiz` (src/App.tsx 2337-2352). -/
def selectCardPool (strategy : String) (cards : List Card) : List Card :=
  if strategy = "needsReview" then cards.filter (fun c => c.status = CardStatus.needsReview)
  else if strategy = "notMastered" then cards.filter (fun c => c.status ≠ CardStatus.mastered)
  else cards

/-- `updateCardStatus` (src/App.tsx 2354-2360): map over the list replacing
only the status of the card at the given index. -/
def updateCardStatus (cards : List Card) (indexToUpdate : Nat) (newStatus : CardStatus) : List Card :=
  cards.mapIdx (fun index card => if index = indexToUpdate then { card with status := newStatus } else card)

/-! ## Shared study-set encoding (src/App.tsx 3113-3123) -/

/-- The payload of the `shared_set` URL parameter:
`JSON.stringify(cards.map(({ front, back }) => ({ front, back })))`, modelled
at the JSON-structure level (the `btoa`/string transport is the browser's). -/
def encodeSharedSet (cards : List Card) : Json :=
  Json.arr (cards.map (fun c => Json.obj [("front", Json.str c.front), ("back", Json.str c.back)]))

/-- Modelled from the spec: the repository contains no decoder for the
`shared_set` parameter (only the encoder at src/App.tsx 3113-3123 exists), so
the re-import is taken from the spec's words: read back the ordered array of
`{ front, back }` objects, with every status reset to `"new"`. -/
def decodeSharedSet : Json → Option (List Card)
  | Json.arr items =>
      items.mapM (fun it =>
        match getField it "front", getField it "back" with
        | some (Json.str f), some (Json.str b) => some { front := f, back := b, status := CardStatus.new }
        | _, _ => none)
  | _ => none

/-! ## AI tutor feedback (`generateAITutorFeedback`, src/App.tsx 948-1032) -/

/-- JS strict equality `userAnswers[index] === q.correctAnswerIndex`, where
the left side is a number or `undefined` and the right side is whatever the
parsed question object holds. -/
def jsStrictEqNum : Option Int → Option Json → Bool
  | some n, some (Json.num m) => n == m
  | none, none => true
  | _, _ => false

/-- The wrong-answer list built by `generateAITutorFeedback`
(src/App.tsx 954-965): every question whose recorded answer is not strictly
equal to its `correctAnswerIndex`. -/
def wrongAnswersInfo (qs : List Json) (answers : Nat → Option Int) : List (Nat × Json) :=
  qs.enum.filter (fun p => !(jsStrictEqNum (answers p.1) (getField p.2 "correctAnswerIndex")))

/-- The fixed celebratory message for a perfect score (src/App.tsx 968-971). -/
def perfectScoreFeedback : TutorFeedback :=
  { title := "Xuất sắc! 100 Điểm!",
    content := "Chúc mừng em đã đạt điểm 100/100 trong bài kiểm tra! Đây là một thành tích rất xuất sắc và đáng tự hào, thể hiện sự nỗ lực và kiến thức vững vàng của em. Em đã làm rất tốt rồi!" }

/-- The decision core of `generateAITutorFeedback` (src/App.tsx 948-1008):
returns the produced feedback plus whether the external service was called
(`svc` is the feedback the service would return). -/
def generateAITutorFeedback (finalScore : Int) (finalQuestions : List Json)
    (finalUserAnswers : Nat → Option Int) (svc : TutorFeedback) : TutorFeedback × Bool :=
  if (wrongAnswersInfo finalQuestions finalUserAnswers).length = 0 ∧ 100 ≤ finalScore then
    (perfectScoreFeedback, false)
  else
    (svc, true)

/-! ## Local persistence reads (src/App.tsx 702-714, 738-783, 1882-1930) -/

/-- A value held under a key of the browser store: either a string that
`JSON.parse` rejects, or one that parses to `j`. -/
inductive StoredValue where
  | corrupt
  | json (j : Json)

/-- The local persistence layer: key → stored value (`none` = missing key). -/
abbrev Store : Type := String → Option StoredValue

/-- The default KidGenius settings object (src/App.tsx 705). -/
def defaultKidSettings : Json :=
  Json.obj [("grade", Json.str "Lớp 6"), ("subject", Json.str "Toán"),
            ("difficulty", Json.str "Dễ"), ("topic", Json.str "")]

/-- JS object spread `{ ...base, ...over }`: keys of `base` in order with
values overridden by `over`, then the remaining keys of `over`.  Spreading a
non-object primitive contributes no enumerable keys. -/
def jsSpread (base over : Json) : Json :=
  match base, over with
  | Json.obj bs, Json.obj os =>
      Json.obj
        (bs.map (fun p => match getAssoc os p.1 with
          | some v => (p.1, v)
          | none => p)
         ++ os.filter (fun p => !(bs.any (fun q => q.1 == p.1))))
  | _, _ => base

/-- The `useState` initializer for KidGenius settings (src/App.tsx 702-714):
missing key → defaults, corrupt value → caught, defaults; otherwise the
parsed object is spread over the defaults. -/
def loadKidGeniusSettings (store : Store) (uid : String) : Json :=
  match store ("kidGeniusSettings_" ++ uid) with
  | none => defaultKidSettings
  | some StoredValue.corrupt => defaultKidSettings
  | some (StoredValue.json j) => jsSpread defaultKidSettings j

/-- The progress-loading `useEffect` (src/App.tsx 738-748): the state starts
as `{}` and is only overwritten by a successful parse; a corrupt value is
caught (and the key removed), leaving `{}`. -/
def loadKidGeniusProgress (store : Store) (uid : String) : Json :=
  match store ("kidGeniusProgress_" ++ uid) with
  | none => Json.obj []
  | some StoredValue.corrupt => Json.obj []
  | some (StoredValue.json j) => j

/-- The history half of the path/history `useEffect` (src/App.tsx 762-783):
missing key or caught parse error both yield the empty history. -/
def loadKidGeniusHistory (store : Store) (uid grade subject : String) : Json :=
  match store ("kidGeniusHistory_" ++ uid ++ "_" ++ grade ++ "_" ++ subject) with
  | none => Json.arr []
  | some StoredValue.corrupt => Json.arr []
  | some (StoredValue.json j) => j

/-- The assignments read of the QuizMaster mount `useEffect`
(src/App.tsx 1886, 1900): `JSON.parse(localStorage.getItem(...) || '[]')`
with no surrounding try/catch — a missing key falls back to `'[]'`, but a
corrupt value makes `JSON.parse` throw out of the effect. -/
def loadAssignments (store : Store) : Except Unit Json :=
  match store "eduquiz:assignments" with
  | none => Except.ok (Json.arr [])
  | some StoredValue.corrupt => Except.error ()
  | some (StoredValue.json j) => Except.ok j

/-- The submissions read of the same mount `useEffect` (src/App.tsx 1901):
`JSON.parse(localStorage.getItem("eduquiz:submissions") || '{}')`, likewise
unguarded. -/
def loadSubmissions (store : Store) : Except Unit Json :=
  match store "eduquiz:submissions" with
  | none => Except.ok (Json.obj [])
  | some StoredValue.corrupt => Except.error ()
  | some (StoredValue.json j) => Except.ok j

instance : Inhabited Card := ⟨{ front := "", back := "", status := CardStatus.new }⟩

/-! ## Helper lemmas -/

lemma foldl_add_replicate_rat (q : Rat) (k : Nat) : ∀ (s : Rat),
    (List.replicate k true).foldl (fun acc c => if c then acc + q else acc) s = s + k * q := by
  induction k with
  | zero => intro s; simp
  | succ m ih =>
      intro s
      rw [List.replicate_succ, List.foldl_cons, ih]
      simp only [if_true]
      push_cast
      ring

lemma foldl_add_replicate_int (q : Int) (k : Nat) : ∀ (s : Int),
    (List.replicate k true).foldl (fun acc c => if c then acc + q else acc) s = s + k * q := by
  induction k with
  | zero => intro s; simp
  | succ m ih =>
      intro s
      rw [List.replicate_succ, List.foldl_cons, ih]
      simp only [if_true]
      push_cast
      ring

lemma kid_foldl_le (bs : List Bool) : ∀ (s : Int),
    bs.foldl (fun acc c => if c then acc + 20 else acc) s ≤ s + 20 * bs.length := by
  induction bs with
  | nil => intro s; simp
  | cons b t ih =>
      intro s
      cases b
      · have h := ih s
        rw [List.foldl_cons]
        simp only [Bool.false_eq_true, if_false]
        refine h.trans ?_
        simp only [List.length_cons]
        push_cast
        omega
      · have h := ih (s + 20)
        rw [List.foldl_cons]
        simp only [if_true]
        refine h.trans ?_
        simp only [List.length_cons]
        push_cast
        omega

/-! ## C10: frame property of `updateCardStatus` -/

/-- C10: setting a card's status via `updateCardStatus(index, status)` changes
only the status field of the card at that index; fronts, backs, the statuses
of all other cards, the list length and the order are unchanged. -/
theorem updateCardStatus_frame (cards : List Card) (i : Nat) (st : CardStatus) :
    (updateCardStatus cards i st).length = cards.length ∧
    ∀ j, j < cards.length →
      ((updateCardStatus cards i st).getD j default).front = (cards.getD j default).front ∧
      ((updateCardStatus cards i st).getD j default).back = (cards.getD j default).back ∧
      (j ≠ i → ((updateCardStatus cards i st).getD j default).status = (cards.getD j default).status) ∧
      (j = i → ((updateCardStatus cards i st).getD j default).status = st) := by
  have hlen : (updateCardStatus cards i st).length = cards.length := by
    unfold updateCardStatus
    simp [List.length_mapIdx]
  refine ⟨hlen, ?_⟩
  intro j hj
  have hj' : j < (updateCardStatus cards i st).length := by rwa [hlen]
  have hget : (updateCardStatus cards i st).getD j default =
      (if j = i then { cards.get ⟨j, hj⟩ with status := st } else cards.get ⟨j, hj⟩) := by
    rw [List.getD_eq_getElem _ _ hj']
    show (updateCardStatus cards i st).get ⟨j, hj'⟩ = _
    revert hj'
    unfold updateCardStatus
    intro hj'
    rw [List.get_mapIdx cards _ j hj]
  have hbase : cards.getD j default = cards.get ⟨j, hj⟩ := by
    rw [List.getD_eq_getElem _ _ hj]; rfl
  by_cases hji : j = i
  · rw [hget, if_pos hji, hbase]
    exact ⟨rfl, rfl, fun h => absurd hji h, fun _ => rfl⟩
  · rw [hget, if_neg hji, hbase]
    exact ⟨rfl, rfl, fun _ => rfl, fun h => absurd h hji⟩

/-- C10 witness: a concrete evaluation of the frame property. -/
theorem updateCardStatus_frame_witness :
    ((updateCardStatus [⟨"f1", "b1", CardStatus.new⟩, ⟨"f2", "b2", CardStatus.new⟩] 1 CardStatus.mastered).getD 1 default).status = CardStatus.mastered := by
  have h := (updateCardStatus_frame [⟨"f1", "b1", CardStatus.new⟩, ⟨"f2", "b2", CardStatus.new⟩] 1 CardStatus.mastered).2 1 (by decide)
  exact h.2.2.2 rfl

/-! ## C7: shared-set export/import round trip -/

/-- C7: exporting a flashcard set and re-importing it yields an identical
ordered sequence of `{front, back}` pairs, with every status reset to
`"new"`. -/
theorem sharedSet_roundTrip (cards : List Card) :
    decodeSharedSet (encodeSharedSet cards) =
      some (cards.map (fun c => { front := c.front, back := c.back, status := CardStatus.new })) ∧
    (cards.map (fun c => ({ front := c.front, back := c.back, status := CardStatus.new } : Card))).map
        (fun c => (c.front, c.back)) =
      cards.map (fun c => (c.front, c.back)) := by
  constructor
  · induction cards with
    | nil => rfl
    | cons c t ih =>
        simp only [encodeSharedSet, List.map_cons] at ih ⊢
        simp only [decodeSharedSet, List.mapM_cons] at ih ⊢
        rw [ih]
        rfl
  · simp [List.map_map]

/-! ## C8: perfect-score tutor feedback -/

/-- C8: with zero wrong answers and the maximal (100) score, the tutor
feedback is the fixed celebratory message and the external service is not
called; in every other case the feedback comes from the service. -/
theorem tutorFeedback_perfect_score (finalScore : Int) (qs : List Json)
    (answers : Nat → Option Int) (svc : TutorFeedback) :
    (((wrongAnswersInfo qs answers).length = 0 ∧ 100 ≤ finalScore) →
        generateAITutorFeedback finalScore qs answers svc = (perfectScoreFeedback, false)) ∧
    (¬((wrongAnswersInfo qs answers).length = 0 ∧ 100 ≤ finalScore) →
        generateAITutorFeedback finalScore qs answers svc = (svc, true)) := by
  constructor
  · intro h
    simp [generateAITutorFeedback, h.1, h.2]
  · intro h
    simp only [generateAITutorFeedback, if_neg h]

/-- C8 witness: a perfect one-question attempt gets the fixed message without
a service call, and an imperfect one calls the service. -/
theorem tutorFeedback_perfect_score_witness :
    generateAITutorFeedback 100 [Json.obj [("correctAnswerIndex", Json.num 0)]]
        (fun _ => some 0) ⟨"t", "c"⟩ = (perfectScoreFeedback, false) ∧
    generateAITutorFeedback 80 [Json.obj [("correctAnswerIndex", Json.num 0)]]
        (fun _ => some 1) ⟨"t", "c"⟩ = (⟨"t", "c"⟩, true) := by
  constructor
  · exact (tutorFeedback_perfect_score 100 _ _ _).1 (by constructor <;> decide)
  · exact (tutorFeedback_perfect_score 80 _ _ _).2 (by decide)

/-! ## C4: failed generation leaves the machine in Setup -/

/-- The only client-side validation of the generator response
(src/App.tsx 867-870): a parseable non-empty array. -/
def isValidQuizResponse : Option Json → Bool
  | some (Json.arr (_ :: _)) => true
  | _ => false

lemma quizGenErrorMessage_ne_empty (detail : String) : quizGenErrorMessage detail ≠ "" := by
  intro h
  have hl := congrArg String.length h
  rw [quizGenErrorMessage, String.length_append] at hl
  have hp : (0:Nat) < ("Không thể tạo câu hỏi. Vui lòng thử lại. Lỗi: ").length := by decide
  have h0 : ("" : String).length = 0 := rfl
  omega

/-- C4: when the upstream response is unparseable, not an array, or an empty
array, `generateKidGeniusQuiz` surfaces an error and leaves the stage,
questions, answers and score untouched (in particular a machine in `Setup`
stays in `Setup`, and no partial attempt state is created). -/
theorem generateQuiz_failure_keeps_setup (fromPath : Bool) (resp : Option Json)
    (st : KidGeniusState) (h : isValidQuizResponse resp = false) :
    (generateKidGeniusQuiz fromPath resp st).stage = st.stage ∧
    (generateKidGeniusQuiz fromPath resp st).questions = st.questions ∧
    (generateKidGeniusQuiz fromPath resp st).userAnswers = st.userAnswers ∧
    (generateKidGeniusQuiz fromPath resp st).score = st.score ∧
    (generateKidGeniusQuiz fromPath resp st).currentQuestionIndex = st.currentQuestionIndex ∧
    (generateKidGeniusQuiz fromPath resp st).error ≠ "" := by
  match resp with
  | none => exact ⟨rfl, rfl, rfl, rfl, rfl, quizGenErrorMessage_ne_empty _⟩
  | some (Json.str _) => exact ⟨rfl, rfl, rfl, rfl, rfl, quizGenErrorMessage_ne_empty _⟩
  | some (Json.num _) => exact ⟨rfl, rfl, rfl, rfl, rfl, quizGenErrorMessage_ne_empty _⟩
  | some (Json.bool _) => exact ⟨rfl, rfl, rfl, rfl, rfl, quizGenErrorMessage_ne_empty _⟩
  | some Json.null => exact ⟨rfl, rfl, rfl, rfl, rfl, quizGenErrorMessage_ne_empty _⟩
  | some (Json.obj _) => exact ⟨rfl, rfl, rfl, rfl, rfl, quizGenErrorMessage_ne_empty _⟩
  | some (Json.arr []) =>
      exact ⟨rfl, rfl, rfl, rfl, rfl, quizGenErrorMessage_ne_empty _⟩
  | some (Json.arr (x :: xs)) => simp [isValidQuizResponse] at h

/-- C4 witness: a response parsing to an empty list leaves the initial
(Setup) state's attempt fields untouched and records an error. -/
theorem generateQuiz_failure_keeps_setup_witness :
    (generateKidGeniusQuiz false (some (Json.arr [])) initialKidGeniusState).stage = Stage.setup ∧
    (generateKidGeniusQuiz false (some (Json.arr [])) initialKidGeniusState).error ≠ "" := by
  have h := generateQuiz_failure_keeps_setup false (some (Json.arr [])) initialKidGeniusState rfl
  exact ⟨h.1, h.2.2.2.2.2⟩

/-! ## C1: per-question score weights -/

/-- A well-formed generated question, used to exercise the KidGenius machine
on a concrete attempt. -/
def sampleGeneratedItem : Json :=
  Json.obj [("question", Json.str "1 + 1 = ?"),
            ("options", Json.arr [Json.str "2", Json.str "3", Json.str "4", Json.str "5"]),
            ("correctAnswerIndex", Json.num 0),
            ("explanation", Json.str "1 + 1 = 2")]

/-- C1 counterexample: the KidGenius machine accepts a 4-question response
(only non-emptiness is validated), and answering all 4 questions correctly
ends the attempt at stage `result` with score 80, not 100 — each correct
answer adds a fixed 20 points, not 100/N. -/
theorem kidGenius_fixed_points_counterexample :
    (generateKidGeniusQuiz false
        (some (Json.arr [sampleGeneratedItem, sampleGeneratedItem, sampleGeneratedItem, sampleGeneratedItem]))
        initialKidGeniusState).stage = Stage.quiz ∧
    (generateKidGeniusQuiz false
        (some (Json.arr [sampleGeneratedItem, sampleGeneratedItem, sampleGeneratedItem, sampleGeneratedItem]))
        initialKidGeniusState).questions.length = 4 ∧
    (handleNext (handleAnswerSelect 0 (handleNext (handleAnswerSelect 0 (handleNext (handleAnswerSelect 0
        (handleNext (handleAnswerSelect 0 (generateKidGeniusQuiz false
          (some (Json.arr [sampleGeneratedItem, sampleGeneratedItem, sampleGeneratedItem, sampleGeneratedItem]))
          initialKidGeniusState))))))))).stage = Stage.result ∧
    (handleNext (handleAnswerSelect 0 (handleNext (handleAnswerSelect 0 (handleNext (handleAnswerSelect 0
        (handleNext (handleAnswerSelect 0 (generateKidGeniusQuiz false
          (some (Json.arr [sampleGeneratedItem, sampleGeneratedItem, sampleGeneratedItem, sampleGeneratedItem]))
          initialKidGeniusState))))))))).score = 80 ∧
    ((80 : Int) = 100 → False) ∧
    kidGeniusScore (List.replicate 4 true) = 80 := by
  refine ⟨rfl, rfl, rfl, rfl, by decide, rfl⟩

/-- C1 amended: in the QuizMaster machine each correct answer adds 100/N and
a fully correct N-question attempt rounds to exactly 100 for every N ≥ 1; in
the KidGenius machine each correct answer adds a fixed 20 points, so the
maximum achievable score is 20·N, which equals 100 only when N = 5. -/
theorem score_weights_amended (n : Nat) (h : 1 ≤ n) :
    quizMasterFinalScore n (List.replicate n true) = 100 ∧
    kidGeniusScore (List.replicate n true) = 20 * n ∧
    (∀ bs : List Bool, kidGeniusScore bs ≤ 20 * bs.length) := by
  refine ⟨?_, ?_, ?_⟩
  · have hn : (n : Rat) ≠ 0 := by
      have hz : n ≠ 0 := by omega
      exact_mod_cast hz
    unfold quizMasterFinalScore quizMasterScore
    rw [foldl_add_replicate_rat]
    rw [zero_add, mul_div_cancel₀ _ hn]
    exact round_intCast 100
  · unfold kidGeniusScore
    rw [foldl_add_replicate_int]
    rw [zero_add, mul_comm]
  · intro bs
    have hb := kid_foldl_le bs 0
    unfold kidGeniusScore
    omega

/-- C1 amended witness: evaluation at N = 3 (QuizMaster) and N = 5
(KidGenius reaches exactly 100). -/
theorem score_weights_amended_witness :
    quizMasterFinalScore 3 (List.replicate 3 true) = 100 ∧
    kidGeniusScore (List.replicate 5 true) = 20 * 5 := by
  exact ⟨(score_weights_amended 3 (by decide)).1, (score_weights_amended 5 (by decide)).2.1⟩

/-! ## C2/C3: unlock-policy lemmas -/

section AssocLemmas

variable {κ α : Type} [DecidableEq κ]

lemma getAssoc_nil (k : κ) : getAssoc ([] : List (κ × α)) k = none := rfl

lemma getAssoc_cons (hd : κ × α) (t : List (κ × α)) (k : κ) :
    getAssoc (hd :: t) k = if hd.1 = k then some hd.2 else getAssoc t k := by
  simp only [getAssoc, List.find?]
  by_cases h : hd.1 = k
  · simp [h]
  · simp [h]

lemma getAssoc_overwrite_ne (l : List (κ × α)) (k k' : κ) (v : α) (h : k' ≠ k) :
    getAssoc (l.map (fun p => if p.1 = k then (k, v) else p)) k' = getAssoc l k' := by
  induction l with
  | nil => rfl
  | cons hd tl ih =>
      rw [List.map_cons, getAssoc_cons, getAssoc_cons]
      by_cases hh : hd.1 = k
      · simp only [if_pos hh]
        rw [if_neg (show ¬((k, v).1 = k') from fun he => h he.symm),
            if_neg (show ¬(hd.1 = k') from by rw [hh]; exact fun he => h he.symm)]
        exact ih
      · simp only [if_neg hh]
        by_cases hc : hd.1 = k'
        · rw [if_pos hc, if_pos hc]
        · rw [if_neg hc, if_neg hc]
          exact ih

lemma getAssoc_overwrite (l : List (κ × α)) (k k' : κ) (v : α) :
    l.any (fun p => decide (p.1 = k)) = true →
    getAssoc (l.map (fun p => if p.1 = k then (k, v) else p)) k' =
      if k' = k then some v else getAssoc l k' := by
  induction l with
  | nil => intro hany; simp at hany
  | cons hd tl ih =>
      intro hany
      rw [List.map_cons, getAssoc_cons, getAssoc_cons]
      by_cases hh : hd.1 = k
      · simp only [if_pos hh]
        by_cases hk' : k' = k
        · rw [if_pos hk', if_pos (show (k, v).1 = k' from hk'.symm)]
        · rw [if_neg hk', if_neg (show ¬((k, v).1 = k') from fun he => hk' he.symm),
              if_neg (show ¬(hd.1 = k') from by rw [hh]; exact fun he => hk' he.symm)]
          exact getAssoc_overwrite_ne tl k k' v hk'
      · simp only [if_neg hh]
        have htl : tl.any (fun p => decide (p.1 = k)) = true := by
          simp [List.any_cons, hh] at hany
          simpa using hany
        by_cases hk' : k' = k
        · rw [if_pos hk']
          rw [if_neg (show ¬(hd.1 = k') from by rw [hk']; exact hh)]
          rw [ih htl, if_pos hk']
        · by_cases hc : hd.1 = k'
          · rw [if_pos hc, if_neg hk', if_pos hc]
          · rw [if_neg hc, if_neg hk', if_neg hc, ih htl, if_neg hk']

lemma getAssoc_append_single (l : List (κ × α)) (k k' : κ) (v : α) :
    l.any (fun p => decide (p.1 = k)) = false →
    getAssoc (l ++ [(k, v)]) k' = if k' = k then some v else getAssoc l k' := by
  induction l with
  | nil =>
      intro _
      rw [List.nil_append, getAssoc_cons, getAssoc_nil]
      by_cases hk' : k' = k
      · rw [if_pos hk', if_pos (show (k, v).1 = k' from hk'.symm)]
      · rw [if_neg hk', if_neg (show ¬((k, v).1 = k') from fun he => hk' he.symm)]
  | cons hd tl ih =>
      intro hnone
      have hh : ¬(hd.1 = k) := by
        intro hx
        simp [List.any_cons, hx] at hnone
      have htl : tl.any (fun p => decide (p.1 = k)) = false := by
        simp [List.any_cons] at hnone
        simpa using hnone.2
      rw [List.cons_append, getAssoc_cons, getAssoc_cons]
      by_cases hc : hd.1 = k'
      · have hk' : ¬(k' = k) := fun he => hh (hc.trans he)
        rw [if_pos hc, if_neg hk', if_pos hc]
      · rw [if_neg hc, if_neg hc, ih htl]

/-- Characterization of `setAssoc`: lookup of the written key yields the new
value, every other lookup is unchanged. -/
lemma getAssoc_setAssoc (l : List (κ × α)) (k k' : κ) (v : α) :
    getAssoc (setAssoc l k v) k' = if k' = k then some v else getAssoc l k' := by
  unfold setAssoc
  by_cases hany : l.any (fun p => decide (p.1 = k)) = true
  · rw [if_pos hany]
    exact getAssoc_overwrite l k k' v hany
  · rw [if_neg hany]
    exact getAssoc_append_single l k k' v (Bool.eq_false_iff.mpr hany)

end AssocLemmas

lemma getAssoc_ensureGrade (p : UnlockProgress) (g g' : String) :
    getAssoc (ensureGrade p g) g' =
      if g' = g then some ((getAssoc p g).getD []) else getAssoc p g' := by
  unfold ensureGrade
  by_cases hp : (getAssoc p g).isSome
  · rw [if_pos hp]
    by_cases hg : g' = g
    · rw [if_pos hg, hg]
      rcases Option.isSome_iff_exists.mp hp with ⟨m, hm⟩
      rw [hm]
      rfl
    · rw [if_neg hg]
  · rw [if_neg hp]
    have hnone : getAssoc p g = none := Option.not_isSome_iff_eq_none.mp hp
    have hany : p.any (fun q => decide (q.1 = g)) = false := by
      by_contra hx
      have hx' : p.any (fun q => decide (q.1 = g)) = true := Bool.of_not_eq_false hx
      rcases List.any_eq_true.mp hx' with ⟨q, hq, hq2⟩
      have : getAssoc p g ≠ none := by
        unfold getAssoc
        have : p.find? (fun r => decide (r.1 = g)) ≠ none := by
          intro hf
          rcases List.find?_eq_none.mp hf q hq with h
          exact h hq2
        intro hm
        rcases Option.map_eq_none.mp hm with h
        exact this h
      exact this hnone
    rw [getAssoc_append_single p g g' [] hany, hnone]
    rfl

lemma ensureGrade_isSome (p : UnlockProgress) (g : String) :
    (getAssoc (ensureGrade p g) g).isSome := by
  rw [getAssoc_ensureGrade, if_pos rfl]
  rfl

lemma ensureGrade_of_isSome (p : UnlockProgress) (g : String) (h : (getAssoc p g).isSome) :
    ensureGrade p g = p := by
  unfold ensureGrade
  rw [if_pos h]

lemma effectiveUnlocked_ensureGrade (p : UnlockProgress) (g g' s' : String) :
    effectiveUnlocked (ensureGrade p g) g' s' = effectiveUnlocked p g' s' := by
  unfold effectiveUnlocked
  rw [getAssoc_ensureGrade]
  by_cases hg : g' = g
  · rw [if_pos hg, hg]
    cases hm : getAssoc p g with
    | none => rfl
    | some m => rfl
  · rw [if_neg hg]

lemma getAssoc_setNested (p : UnlockProgress) (g s nd g' : String) :
    getAssoc (setNested p g s nd) g' =
      if g' = g then (getAssoc p g).map (fun m => setAssoc m s nd) else getAssoc p g' := by
  induction p with
  | nil =>
      by_cases hg : g' = g <;> simp [setNested, getAssoc_nil, hg]
  | cons hd tl ih =>
      unfold setNested at ih ⊢
      by_cases hh : hd.1 = g
      · by_cases hg : g' = g
        · simp [getAssoc_cons, hh, hg]
        · have hg2 : ¬(g = g') := fun he => hg he.symm
          simp [getAssoc_cons, hh, hg, hg2, ih]
      · have hh2 : ¬(g = hd.1) := fun he => hh he.symm
        by_cases hg : g' = g
        · subst hg
          simp [getAssoc_cons, hh, hh2, ih]
        · by_cases hc : hd.1 = g' <;> simp [getAssoc_cons, hh, hh2, hg, hc, ih]

lemma effectiveUnlocked_setNested_self (p : UnlockProgress) (g s nd : String)
    (h : (getAssoc p g).isSome) :
    effectiveUnlocked (setNested p g s nd) g s = if nd = "" then "Dễ" else nd := by
  unfold effectiveUnlocked
  rw [getAssoc_setNested, if_pos rfl]
  rcases Option.isSome_iff_exists.mp h with ⟨m, hm⟩
  rw [hm]
  show (match getAssoc (setAssoc m s nd) s with
        | some v => if v = "" then "Dễ" else v
        | none => "Dễ") = _
  rw [getAssoc_setAssoc, if_pos rfl]

lemma effectiveUnlocked_setNested_other (p : UnlockProgress) (g s nd g' s' : String)
    (h : ¬(g' = g ∧ s' = s)) :
    effectiveUnlocked (setNested p g s nd) g' s' = effectiveUnlocked p g' s' := by
  unfold effectiveUnlocked
  rw [getAssoc_setNested]
  by_cases hg : g' = g
  · have hs : ¬(s' = s) := fun hx => h ⟨hg, hx⟩
    rw [if_pos hg, hg]
    cases hm : getAssoc p g with
    | none => rfl
    | some m =>
        show (match getAssoc (setAssoc m s nd) s' with
              | some v => if v = "" then "Dễ" else v
              | none => "Dễ") = _
        rw [getAssoc_setAssoc, if_neg hs]
        rfl
  · rw [if_neg hg]

lemma jsGtOpt_irrefl (a : Option Nat) : jsGtOpt a a = false := by
  cases a with
  | none => rfl
  | some x => simp [jsGtOpt]

lemma jsGtOpt_true_elim {a b : Option Nat} (h : jsGtOpt a b = true) :
    ∃ x y, a = some x ∧ b = some y ∧ y < x := by
  cases a with
  | none => simp [jsGtOpt] at h
  | some x =>
      cases b with
      | none => simp [jsGtOpt] at h
      | some y =>
          refine ⟨x, y, rfl, rfl, ?_⟩
          simpa [jsGtOpt] using h

lemma difficultyOrder_ne_empty {nd : String} {x : Nat} (h : difficultyOrder nd = some x) :
    ¬(nd = "") := by
  intro he
  rw [he] at h
  simp [difficultyOrder] at h

lemma unlockStep_idem (g s nd : String) (p1 : UnlockProgress)
    (hp : (getAssoc p1 g).isSome) :
    unlockStep g s nd (ensureGrade (unlockStep g s nd p1) g) = unlockStep g s nd p1 := by
  unfold unlockStep
  by_cases hc : jsGtOpt (difficultyOrder nd) (difficultyOrder (effectiveUnlocked p1 g s)) = true
  · rw [if_pos hc]
    have hr : (getAssoc (setNested p1 g s nd) g).isSome := by
      rw [getAssoc_setNested, if_pos rfl]
      rcases Option.isSome_iff_exists.mp hp with ⟨m, hm⟩
      rw [hm]
      rfl
    rw [ensureGrade_of_isSome _ _ hr]
    rcases jsGtOpt_true_elim hc with ⟨x, y, hx, hy, hlt⟩
    have hnd : ¬(nd = "") := difficultyOrder_ne_empty hx
    have heff : effectiveUnlocked (setNested p1 g s nd) g s = nd := by
      rw [effectiveUnlocked_setNested_self p1 g s nd hp, if_neg hnd]
    rw [heff, jsGtOpt_irrefl]
    simp
  · rw [if_neg hc, ensureGrade_of_isSome _ _ hp, if_neg hc]

lemma applyUnlockPolicy_low (g s d : String) (sc : Int) (prev : UnlockProgress)
    (hsc : ¬(70 ≤ sc)) : applyUnlockPolicy g s d sc prev = prev := by
  unfold applyUnlockPolicy
  rw [if_neg hsc]

lemma applyUnlockPolicy_badDiff (g s d : String) (sc : Int) (prev : UnlockProgress)
    (hsc : 70 ≤ sc) (hd : difficultyOrder d = none) :
    applyUnlockPolicy g s d sc prev = prev := by
  unfold applyUnlockPolicy
  rw [if_pos hsc]
  split
  · rfl
  · rename_i idx heq
    rw [hd] at heq
    cases heq

lemma applyUnlockPolicy_top (g s d : String) (sc : Int) (prev : UnlockProgress) (idx : Nat)
    (hsc : 70 ≤ sc) (hd : difficultyOrder d = some idx) (hidx : ¬(idx < 3)) :
    applyUnlockPolicy g s d sc prev = prev := by
  unfold applyUnlockPolicy
  rw [if_pos hsc]
  split
  · rfl
  · rename_i idx' heq
    rw [hd] at heq
    injection heq with h
    subst h
    rw [if_neg hidx]

lemma applyUnlockPolicy_write (g s d : String) (sc : Int) (prev : UnlockProgress)
    (idx : Nat) (nd : String)
    (hsc : 70 ≤ sc) (hd : difficultyOrder d = some idx) (hidx : idx < 3)
    (hnext : nextDifficultyOf idx = some nd) :
    applyUnlockPolicy g s d sc prev = unlockStep g s nd (ensureGrade prev g) := by
  unfold applyUnlockPolicy
  rw [if_pos hsc]
  split
  · rename_i heq
    rw [hd] at heq
    cases heq
  · rename_i idx' heq
    rw [hd] at heq
    injection heq with h
    subst h
    rw [if_pos hidx]
    split
    · rename_i nd' heq2
      rw [hnext] at heq2
      injection heq2 with h2
      subst h2
      rfl
    · rename_i heq2
      rw [hnext] at heq2
      cases heq2

lemma applyUnlockPolicy_noNext (g s d : String) (sc : Int) (prev : UnlockProgress) (idx : Nat)
    (hsc : 70 ≤ sc) (hd : difficultyOrder d = some idx) (hidx : idx < 3)
    (hnext : nextDifficultyOf idx = none) :
    applyUnlockPolicy g s d sc prev = ensureGrade prev g := by
  unfold applyUnlockPolicy
  rw [if_pos hsc]
  split
  · rename_i heq
    rw [hd] at heq
    cases heq
  · rename_i idx' heq
    rw [hd] at heq
    injection heq with h
    subst h
    rw [if_pos hidx]
    split
    · rename_i nd' heq2
      rw [hnext] at heq2
      cases heq2
    · rfl

/-- Case analysis on one application of the unlock policy: either every
(grade, subject) reading of the progress mapping is unchanged, or only the
played (grade, subject) pair changed and its new order is strictly above the
old one. -/
lemma applyUnlock_effect (g s d : String) (sc : Int) (prev : UnlockProgress) :
    (∀ g' s', effectiveUnlocked (applyUnlockPolicy g s d sc prev) g' s' = effectiveUnlocked prev g' s') ∨
    ((∀ g' s', ¬(g' = g ∧ s' = s) →
        effectiveUnlocked (applyUnlockPolicy g s d sc prev) g' s' = effectiveUnlocked prev g' s') ∧
     jsGtOpt (difficultyOrder (effectiveUnlocked (applyUnlockPolicy g s d sc prev) g s))
             (difficultyOrder (effectiveUnlocked prev g s)) = true) := by
  by_cases hsc : 70 ≤ sc
  · cases hd : difficultyOrder d with
    | none =>
        rw [applyUnlockPolicy_badDiff g s d sc prev hsc hd]
        exact Or.inl (fun g' s' => rfl)
    | some idx =>
        by_cases hidx : idx < 3
        · cases hnext : nextDifficultyOf idx with
          | none =>
              rw [applyUnlockPolicy_noNext g s d sc prev idx hsc hd hidx hnext]
              exact Or.inl (fun g' s' => effectiveUnlocked_ensureGrade prev g g' s')
          | some nd =>
              rw [applyUnlockPolicy_write g s d sc prev idx nd hsc hd hidx hnext]
              unfold unlockStep
              by_cases hc : jsGtOpt (difficultyOrder nd)
                  (difficultyOrder (effectiveUnlocked (ensureGrade prev g) g s)) = true
              · rw [if_pos hc]
                refine Or.inr ⟨?_, ?_⟩
                · intro g' s' hgs
                  rw [effectiveUnlocked_setNested_other _ _ _ _ _ _ hgs,
                      effectiveUnlocked_ensureGrade]
                · rcases jsGtOpt_true_elim hc with ⟨x, y, hx, hy, hlt⟩
                  have hnd : ¬(nd = "") := difficultyOrder_ne_empty hx
                  rw [effectiveUnlocked_setNested_self _ _ _ _ (ensureGrade_isSome prev g),
                      if_neg hnd]
                  rw [effectiveUnlocked_ensureGrade] at hc
                  exact hc
              · rw [if_neg hc]
                exact Or.inl (fun g' s' => effectiveUnlocked_ensureGrade prev g g' s')
        · rw [applyUnlockPolicy_top g s d sc prev idx hsc hd hidx]
          exact Or.inl (fun g' s' => rfl)
  · rw [applyUnlockPolicy_low g s d sc prev hsc]
    exact Or.inl (fun g' s' => rfl)

/-- C2: the unlock policy is idempotent — applying it twice with the same
(grade, subject, difficulty, passing score) input yields the same
`UnlockProgress` value as applying it once — and a (grade, subject) reading
of the mapping changes only for the played pair, and only to a strictly
higher tier than the one currently unlocked. -/
theorem unlockPolicy_idempotent (g s d : String) (sc : Int) (prev : UnlockProgress)
    (hsc : 70 ≤ sc) :
    applyUnlockPolicy g s d sc (applyUnlockPolicy g s d sc prev) = applyUnlockPolicy g s d sc prev ∧
    (∀ g' s', effectiveUnlocked (applyUnlockPolicy g s d sc prev) g' s' ≠ effectiveUnlocked prev g' s' →
      g' = g ∧ s' = s ∧
      jsGtOpt (difficultyOrder (effectiveUnlocked (applyUnlockPolicy g s d sc prev) g s))
              (difficultyOrder (effectiveUnlocked prev g s)) = true) := by
  constructor
  · cases hd : difficultyOrder d with
    | none =>
        rw [applyUnlockPolicy_badDiff g s d sc prev hsc hd,
            applyUnlockPolicy_badDiff g s d sc prev hsc hd]
    | some idx =>
        by_cases hidx : idx < 3
        · cases hnext : nextDifficultyOf idx with
          | none =>
              rw [applyUnlockPolicy_noNext g s d sc prev idx hsc hd hidx hnext,
                  applyUnlockPolicy_noNext g s d sc _ idx hsc hd hidx hnext,
                  ensureGrade_of_isSome _ _ (ensureGrade_isSome prev g)]
          | some nd =>
              rw [applyUnlockPolicy_write g s d sc prev idx nd hsc hd hidx hnext,
                  applyUnlockPolicy_write g s d sc _ idx nd hsc hd hidx hnext]
              exact unlockStep_idem g s nd (ensureGrade prev g) (ensureGrade_isSome prev g)
        · rw [applyUnlockPolicy_top g s d sc prev idx hsc hd hidx,
              applyUnlockPolicy_top g s d sc prev idx hsc hd hidx]
  · intro g' s' hne
    rcases applyUnlock_effect g s d sc prev with hall | ⟨hframe, hgt⟩
    · exact absurd (hall g' s') hne
    · by_cases hgs : g' = g ∧ s' = s
      · exact ⟨hgs.1, hgs.2, hgt⟩
      · exact absurd (hframe g' s' hgs) hne

/-- C2 witness: the spec scenario — grade "Lớp 6", subject "Toán",
difficulty "Dễ", score 80 unlocks "Trung bình", and replaying the identical
result leaves the progress mapping unchanged. -/
theorem unlockPolicy_idempotent_witness :
    applyUnlockPolicy "Lớp 6" "Toán" "Dễ" 80
        (applyUnlockPolicy "Lớp 6" "Toán" "Dễ" 80 []) =
      applyUnlockPolicy "Lớp 6" "Toán" "Dễ" 80 [] ∧
    effectiveUnlocked (applyUnlockPolicy "Lớp 6" "Toán" "Dễ" 80 []) "Lớp 6" "Toán" = "Trung bình" := by
  exact ⟨(unlockPolicy_idempotent "Lớp 6" "Toán" "Dễ" 80 [] (by decide)).1, by decide⟩

/-- C3: under every application of the unlock policy the unlocked tier of
every (grade, subject) pair is monotonically non-decreasing (a tier is never
re-locked), and a below-threshold score leaves the progress value entirely
unchanged. -/
theorem unlockPolicy_monotone (g s d : String) (sc : Int) (prev : UnlockProgress)
    (g' s' : String) :
    (difficultyOrder (effectiveUnlocked prev g' s')).getD 0 ≤
      (difficultyOrder (effectiveUnlocked (applyUnlockPolicy g s d sc prev) g' s')).getD 0 ∧
    (sc < 70 → applyUnlockPolicy g s d sc prev = prev) := by
  constructor
  · rcases applyUnlock_effect g s d sc prev with hall | ⟨hframe, hgt⟩
    · rw [hall g' s']
    · by_cases hgs : g' = g ∧ s' = s
      · rcases hgs with ⟨hg, hs⟩
        subst hg
        subst hs
        rcases jsGtOpt_true_elim hgt with ⟨x, y, hx, hy, hlt⟩
        rw [hx, hy]
        exact le_of_lt hlt
      · rw [hframe g' s' hgs]
  · intro hlt
    unfold applyUnlockPolicy
    rw [if_neg (by omega : ¬(70 ≤ sc))]

/-- C3 witness: score 40 leaves a concrete progress value untouched, and the
unlocked order at the played pair does not decrease for a concrete score-80
application. -/
theorem unlockPolicy_monotone_witness :
    applyUnlockPolicy "Lớp 6" "Toán" "Dễ" 40 [("Lớp 6", [("Toán", "Trung bình")])] =
      [("Lớp 6", [("Toán", "Trung bình")])] ∧
    (difficultyOrder (effectiveUnlocked [("Lớp 6", [("Toán", "Trung bình")])] "Lớp 6" "Toán")).getD 0 ≤
      (difficultyOrder (effectiveUnlocked
        (applyUnlockPolicy "Lớp 6" "Toán" "Dễ" 80 [("Lớp 6", [("Toán", "Trung bình")])])
        "Lớp 6" "Toán")).getD 0 := by
  exact ⟨(unlockPolicy_monotone "Lớp 6" "Toán" "Dễ" 40 [("Lớp 6", [("Toán", "Trung bình")])] "Lớp 6" "Toán").2 (by decide),
         (unlockPolicy_monotone "Lớp 6" "Toán" "Dễ" 80 [("Lớp 6", [("Toán", "Trung bình")])] "Lớp 6" "Toán").1⟩

/-! ## C5/C6: flashcard-to-quiz conversion -/

lemma makeMC_length (shc0 : List Card → List Card) (shcD : Nat → List Card → List Card)
    (shsO : Nat → List String → List String) (cards : List Card) (count : Nat) :
    (makeMCFromCards shc0 shcD shsO cards count).length = min count (shc0 cards).length := by
  unfold makeMCFromCards
  simp

lemma makeMC_getD (shc0 : List Card → List Card) (shcD : Nat → List Card → List Card)
    (shsO : Nat → List String → List String) (cards : List Card) (count : Nat) (i : Nat)
    (hi : i < (makeMCFromCards shc0 shcD shsO cards count).length) :
    (makeMCFromCards shc0 shcD shsO cards count).getD i default =
      { id := i + 1, type := "mc", q := (mcCorrectCard shc0 cards i).front,
        opts := shsO i ((mcCorrectCard shc0 cards i).back ::
          mcDistractors shcD cards (mcCorrectCard shc0 cards i) i),
        a := jsIndexOf
          (shsO i ((mcCorrectCard shc0 cards i).back ::
            mcDistractors shcD cards (mcCorrectCard shc0 cards i) i))
          (mcCorrectCard shc0 cards i).back,
        explanation := "Đáp án đúng là \"" ++ (mcCorrectCard shc0 cards i).back ++ "\" vì nó tương ứng với mặt trước của thẻ: \"" ++ (mcCorrectCard shc0 cards i).front ++ "\"." } := by
  rw [List.getD_eq_getElem _ _ hi]
  unfold makeMCFromCards at hi ⊢
  simp [List.getElem_map, List.getElem_range]

lemma length_filter_lt_of_mem {α : Type} (l : List α) (p : α → Bool) (a : α)
    (ha : a ∈ l) (hpa : p a = false) :
    (l.filter p).length < l.length := by
  induction l with
  | nil => cases ha
  | cons hd tl ih =>
      rw [List.filter_cons]
      by_cases hp : p hd = true
      · rcases List.mem_cons.mp ha with h | h
        · rw [h] at hpa
          rw [hpa] at hp
          cases hp
        · rw [if_pos hp]
          simpa using ih h
      · rw [if_neg hp]
        have hle := List.length_filter_le p tl
        simp only [List.length_cons]
        omega

/-- C5 (amended, flashcard path): for every question produced by
`makeMCFromCards` — under any permutation behaviour of the option shuffle —
`a` is a valid non-negative index into `opts` and `opts[a]` is the chosen
card's back-text. -/
theorem flashcard_mc_correctAnswer_valid
    (shc0 : List Card → List Card) (shcD : Nat → List Card → List Card)
    (shsO : Nat → List String → List String)
    (hO : ∀ i l, (shsO i l).Perm l)
    (cards : List Card) (count : Nat) (i : Nat)
    (hi : i < (makeMCFromCards shc0 shcD shsO cards count).length) :
    0 ≤ ((makeMCFromCards shc0 shcD shsO cards count).getD i default).a ∧
    (((makeMCFromCards shc0 shcD shsO cards count).getD i default).a).toNat <
      ((makeMCFromCards shc0 shcD shsO cards count).getD i default).opts.length ∧
    ((makeMCFromCards shc0 shcD shsO cards count).getD i default).opts.getD
        ((((makeMCFromCards shc0 shcD shsO cards count).getD i default).a).toNat) "" =
      (mcCorrectCard shc0 cards i).back := by
  rw [makeMC_getD shc0 shcD shsO cards count i hi]
  have hmem : (mcCorrectCard shc0 cards i).back ∈
      shsO i ((mcCorrectCard shc0 cards i).back ::
        mcDistractors shcD cards (mcCorrectCard shc0 cards i) i) :=
    ((hO i _).mem_iff).mpr (List.mem_cons_self _ _)
  show 0 ≤ jsIndexOf _ _ ∧ (jsIndexOf _ _).toNat < _ ∧ _
  unfold jsIndexOf
  rw [if_pos hmem]
  refine ⟨Int.natCast_nonneg _, ?_, ?_⟩
  · rw [Int.toNat_natCast]
    exact List.indexOf_lt_length.mpr hmem
  · rw [Int.toNat_natCast,
      List.getD_eq_getElem _ _ (List.indexOf_lt_length.mpr hmem)]
    exact List.getElem_indexOf (List.indexOf_lt_length.mpr hmem)

/-- C5 witness: a concrete two-card conversion where the correct index is
valid and points at the chosen card's back. -/
theorem flashcard_mc_correctAnswer_valid_witness :
    0 ≤ ((makeMCFromCards id (fun _ => id) (fun _ => id)
        [⟨"f1", "b1", CardStatus.new⟩, ⟨"f2", "b2", CardStatus.new⟩] 2).getD 0 default).a ∧
    (((makeMCFromCards id (fun _ => id) (fun _ => id)
        [⟨"f1", "b1", CardStatus.new⟩, ⟨"f2", "b2", CardStatus.new⟩] 2).getD 0 default).a).toNat <
      ((makeMCFromCards id (fun _ => id) (fun _ => id)
        [⟨"f1", "b1", CardStatus.new⟩, ⟨"f2", "b2", CardStatus.new⟩] 2).getD 0 default).opts.length ∧
    ((makeMCFromCards id (fun _ => id) (fun _ => id)
        [⟨"f1", "b1", CardStatus.new⟩, ⟨"f2", "b2", CardStatus.new⟩] 2).getD 0 default).opts.getD
        ((((makeMCFromCards id (fun _ => id) (fun _ => id)
        [⟨"f1", "b1", CardStatus.new⟩, ⟨"f2", "b2", CardStatus.new⟩] 2).getD 0 default).a).toNat) "" =
      (mcCorrectCard id [⟨"f1", "b1", CardStatus.new⟩, ⟨"f2", "b2", CardStatus.new⟩] 0).back := by
  exact flashcard_mc_correctAnswer_valid id (fun _ => id) (fun _ => id)
    (fun i l => List.Perm.refl l)
    [⟨"f1", "b1", CardStatus.new⟩, ⟨"f2", "b2", CardStatus.new⟩] 2 0 (by decide)

/-- The generator path performs no per-item schema validation: an item whose
`correctAnswerIndex` is out of range for its `options`. -/
def badGeneratedItem : Json :=
  Json.obj [("question", Json.str "q"),
            ("options", Json.arr [Json.str "a", Json.str "b"]),
            ("correctAnswerIndex", Json.num 5),
            ("explanation", Json.str "e")]

/-- C5 counterexample: `generateKidGeniusQuiz` accepts a response whose only
item has `correctAnswerIndex = 5` with just 2 options, starts the quiz with
it, and the index is out of range — the adapter does not establish the
claimed invariant for generator-produced questions. -/
theorem generator_invalid_index_accepted :
    (generateKidGeniusQuiz false (some (Json.arr [badGeneratedItem])) initialKidGeniusState).stage = Stage.quiz ∧
    (generateKidGeniusQuiz false (some (Json.arr [badGeneratedItem])) initialKidGeniusState).questions = [badGeneratedItem] ∧
    getField badGeneratedItem "correctAnswerIndex" = some (Json.num 5) ∧
    getField badGeneratedItem "options" = some (Json.arr [Json.str "a", Json.str "b"]) ∧
    ¬((5 : Int) < 2) := by
  refine ⟨rfl, rfl, rfl, rfl, by decide⟩

/-- C6: under any permutation behaviour of the three shuffles,
`makeMCFromCards(cards, count)` yields exactly `min count cards.length`
questions (never more), and each question's options consist of the chosen
card's back plus at most 3 distractor backs drawn without replacement from
the cards with a different front (fewer when fewer such cards exist), with
no possibility of a crash (all operations are total). -/
theorem toQuiz_count_and_distractors
    (shc0 : List Card → List Card) (shcD : Nat → List Card → List Card)
    (shsO : Nat → List String → List String)
    (h0 : ∀ l, (shc0 l).Perm l) (hD : ∀ i l, (shcD i l).Perm l) (hO : ∀ i l, (shsO i l).Perm l)
    (cards : List Card) (count : Nat) :
    (makeMCFromCards shc0 shcD shsO cards count).length = min count cards.length ∧
    ∀ i, i < (makeMCFromCards shc0 shcD shsO cards count).length →
      ((makeMCFromCards shc0 shcD shsO cards count).getD i default).opts.Perm
        ((mcCorrectCard shc0 cards i).back ::
          mcDistractors shcD cards (mcCorrectCard shc0 cards i) i) ∧
      (mcDistractors shcD cards (mcCorrectCard shc0 cards i) i).length =
        min 3 (cards.filter (fun c => c.front != (mcCorrectCard shc0 cards i).front)).length ∧
      (mcDistractors shcD cards (mcCorrectCard shc0 cards i) i).Subperm
        ((cards.filter (fun c => c.front != (mcCorrectCard shc0 cards i).front)).map (fun c => c.back)) ∧
      (mcDistractors shcD cards (mcCorrectCard shc0 cards i) i).length ≤ 3 ∧
      (mcDistractors shcD cards (mcCorrectCard shc0 cards i) i).length < cards.length := by
  have hlen : (makeMCFromCards shc0 shcD shsO cards count).length = min count cards.length := by
    rw [makeMC_length, (h0 cards).length_eq]
  refine ⟨hlen, ?_⟩
  intro i hi
  have hfl : (mcDistractors shcD cards (mcCorrectCard shc0 cards i) i).length =
      min 3 (cards.filter (fun c => c.front != (mcCorrectCard shc0 cards i).front)).length := by
    unfold mcDistractors
    rw [List.length_map, List.length_take,
        (hD i (cards.filter (fun c => c.front != (mcCorrectCard shc0 cards i).front))).length_eq]
  have hi2 : i < (shc0 cards).length := by
    rw [(h0 cards).length_eq]
    rw [hlen] at hi
    omega
  have hcorrectmem : mcCorrectCard shc0 cards i ∈ cards := by
    have hmem : mcCorrectCard shc0 cards i ∈ shc0 cards := by
      unfold mcCorrectCard
      rw [List.getD_eq_getElem _ _ hi2]
      exact List.getElem_mem _
    exact (h0 cards).mem_iff.mp hmem
  refine ⟨?_, hfl, ?_, ?_, ?_⟩
  · rw [makeMC_getD shc0 shcD shsO cards count i hi]
    exact hO i _
  · unfold mcDistractors
    have hsub : ((shcD i (cards.filter (fun c => c.front != (mcCorrectCard shc0 cards i).front))).take 3).Sublist
        (shcD i (cards.filter (fun c => c.front != (mcCorrectCard shc0 cards i).front))) :=
      List.take_sublist _ _
    have hsub2 := hsub.map (fun c => c.back)
    have hperm := (hD i (cards.filter (fun c => c.front != (mcCorrectCard shc0 cards i).front))).map (fun c => c.back)
    exact (hsub2.subperm).trans hperm.subperm
  · rw [hfl]
    exact Nat.min_le_left _ _
  · rw [hfl]
    have hflt : (cards.filter (fun c => c.front != (mcCorrectCard shc0 cards i).front)).length < cards.length := by
      refine length_filter_lt_of_mem cards _ (mcCorrectCard shc0 cards i) hcorrectmem ?_
      simp
    omega

/-- C6 witness: converting a 4-card set with `count = 5` (identity shuffles)
yields exactly 4 questions, and the first question's distractor count is 3. -/
theorem toQuiz_count_and_distractors_witness :
    (makeMCFromCards id (fun _ => id) (fun _ => id)
      [⟨"f1", "b1", CardStatus.new⟩, ⟨"f2", "b2", CardStatus.new⟩,
       ⟨"f3", "b3", CardStatus.new⟩, ⟨"f4", "b4", CardStatus.new⟩] 5).length =
      min 5 4 := by
  have h := (toQuiz_count_and_distractors id (fun _ => id) (fun _ => id)
    (fun l => List.Perm.refl l) (fun i l => List.Perm.refl l) (fun i l => List.Perm.refl l)
    [⟨"f1", "b1", CardStatus.new⟩, ⟨"f2", "b2", CardStatus.new⟩,
     ⟨"f3", "b3", CardStatus.new⟩, ⟨"f4", "b4", CardStatus.new⟩] 5).1
  simpa using h

/-! ## C9: persistence-read fallbacks -/

/-- C9 counterexample: a corrupt `eduquiz:assignments` value makes the
QuizMaster mount effect's unguarded `JSON.parse` throw — the read propagates
a parse error instead of falling back to the empty assignment list. -/
theorem assignments_corrupt_propagates :
    loadAssignments (fun k => if k = "eduquiz:assignments" then some StoredValue.corrupt else none) =
      Except.error () := rfl

/-- C9 (amended): the KidGenius settings, progress and history reads fall
back to their documented defaults on a missing or corrupt key, while the
QuizMaster assignments and submissions reads fall back only when the key is
missing. -/
theorem persistence_defaults_amended (store : Store) (uid grade subject : String) :
    ((store ("kidGeniusSettings_" ++ uid) = none ∨
        store ("kidGeniusSettings_" ++ uid) = some StoredValue.corrupt) →
      loadKidGeniusSettings store uid = defaultKidSettings) ∧
    ((store ("kidGeniusProgress_" ++ uid) = none ∨
        store ("kidGeniusProgress_" ++ uid) = some StoredValue.corrupt) →
      loadKidGeniusProgress store uid = Json.obj []) ∧
    ((store ("kidGeniusHistory_" ++ uid ++ "_" ++ grade ++ "_" ++ subject) = none ∨
        store ("kidGeniusHistory_" ++ uid ++ "_" ++ grade ++ "_" ++ subject) = some StoredValue.corrupt) →
      loadKidGeniusHistory store uid grade subject = Json.arr []) ∧
    (store "eduquiz:assignments" = none →
      loadAssignments store = Except.ok (Json.arr [])) ∧
    (store "eduquiz:submissions" = none →
      loadSubmissions store = Except.ok (Json.obj [])) := by
  refine ⟨?_, ?_, ?_, ?_, ?_⟩
  · intro h
    unfold loadKidGeniusSettings
    rcases h with h | h <;> rw [h]
  · intro h
    unfold loadKidGeniusProgress
    rcases h with h | h <;> rw [h]
  · intro h
    unfold loadKidGeniusHistory
    rcases h with h | h <;> rw [h]
  · intro h
    unfold loadAssignments
    rw [h]
  · intro h
    unfold loadSubmissions
    rw [h]

/-- C9 witness: on an empty store every read yields its default. -/
theorem persistence_defaults_amended_witness :
    loadKidGeniusSettings (fun _ => none) "u" = defaultKidSettings ∧
    loadKidGeniusProgress (fun _ => none) "u" = Json.obj [] ∧
    loadKidGeniusHistory (fun _ => none) "u" "Lớp 6" "Toán" = Json.arr [] ∧
    loadAssignments (fun _ => none) = Except.ok (Json.arr []) ∧
    loadSubmissions (fun _ => none) = Except.ok (Json.obj []) := by
  have h := persistence_defaults_amended (fun _ => none) "u" "Lớp 6" "Toán"
  exact ⟨h.1 (Or.inl rfl), h.2.1 (Or.inl rfl), h.2.2.1 (Or.inl rfl),
         h.2.2.2.1 rfl, h.2.2.2.2 rfl⟩

end DayHocAI
